import Mathlib

/-!
Verification of the UUID version 8 generator (`version8.go`).

The Go source is shallowly embedded:
* an `io.Reader` is modelled as `Option (List Nat)`: `none` is a source that
  fails immediately, `some bs` is a source that can deliver the byte stream
  `bs` (so `io.ReadFull` on `n` bytes succeeds iff `n ≤ bs.length`);
* a `UUID` (`[16]byte`) is a `List Nat` of length 16; `byte` values are `Nat`
  taken modulo 256 where the Go code converts;
* `uint64`/`uint16` arithmetic is `Nat` arithmetic modulo `2 ^ 64` / `2 ^ 16`;
* the package-global pair `(lastTimestamp, sequence)` is an explicit
  `SeqState` value threaded through `NewV8TimeBased`;
* functions returning `(UUID, error)` return `List Nat × Bool`, the `Bool`
  being `true` exactly when the Go function returns a non-nil error.
-/

/-- A fallible byte source: `none` fails, `some bs` holds the available bytes. -/
abbrev ByteSource := Option (List Nat)

/-- Model of `io.ReadFull r buf` for a buffer of `n` bytes: succeeds with the
first `n` bytes of the source iff the source works and has at least `n` bytes. -/
def readFull (r : ByteSource) (n : Nat) : Option (List Nat) :=
  match r with
  | none => none
  | some bs => if n ≤ bs.length then some (bs.take n) else none

/-- The all-zero `Nil` UUID. -/
def Nil : List Nat := List.replicate 16 0

/-- `binary.BigEndian.PutUint64`: the eight big-endian bytes of a `uint64`. -/
def be64 (v : Nat) : List Nat :=
  [(v >>> 56) % 256, (v >>> 48) % 256, (v >>> 40) % 256, (v >>> 32) % 256,
   (v >>> 24) % 256, (v >>> 16) % 256, (v >>> 8) % 256, v % 256]

/-- `binary.BigEndian.PutUint16 (u[i:]) v`: write `byte(v >> 8)` at index `i`
and `byte(v)` at index `i+1`. -/
def putUint16 (u : List Nat) (i v : Nat) : List Nat :=
  (u.set i ((v >>> 8) % 256)).set (i + 1) (v % 256)

/-- Modelled from the spec: `NewRandom` is not part of `version8.go`; per the
spec it is the capability "produce 16 uniformly random bytes, fallibly", and on
failure every generator returns the error alongside the sentinel Nil
identifier. -/
def NewRandom (rander : ByteSource) : List Nat × Bool :=
  match readFull rander 16 with
  | none => (Nil, true)
  | some bs => (bs, false)

/-- `NewV8` (lines 34–42): `NewRandom`, then stamp version and variant. -/
def NewV8 (rander : ByteSource) : List Nat × Bool :=
  let p := NewRandom rander
  if p.2 then p
  else
    let u1 := p.1.set 6 ((p.1.getD 6 0 &&& 0x0F) ||| 0x80)
    let u2 := u1.set 8 ((u1.getD 8 0 &&& 0x3F) ||| 0x80)
    (u2, false)

/-- `NewV8FromReader` (lines 47–68). `random` is the Go `random io.Reader`
argument (`none` models a nil reader, which falls back to the package-global
`rander`, passed here explicitly). -/
def NewV8FromReader (customA customB : Nat) (random : Option ByteSource)
    (rander : ByteSource) : List Nat × Bool :=
  let a := customA % 2 ^ 64
  let u0 := be64 a ++ List.replicate 8 0
  let u1 := (u0.drop 2).take 6 ++ u0.drop 6
  let u2 := u1.set 6 ((u1.getD 6 0 &&& 0x0F) ||| 0x80)
  let u3 := putUint16 u2 6 ((customB % 2 ^ 16) ||| 0x8000)
  let r := random.getD rander
  match readFull r 8 with
  | none => (Nil, true)
  | some bs =>
    let u4 := u3.take 8 ++ bs
    let u5 := u4.set 8 ((u4.getD 8 0 &&& 0x3F) ||| 0x80)
    (u5, false)

/-- The package-global pair `(lastTimestamp, sequence)` (lines 13–16). -/
structure SeqState where
  lastTimestamp : Nat
  sequence : Nat
deriving DecidableEq

/-- `NewV8TimeBased` (lines 72–107), with the shared state and the clock
reading made explicit: `st` is the state before the call, `tIn` the value of
`uint64(time.Now().UnixNano())`, and the first component of the result is the
state after the call. -/
def NewV8TimeBased (st : SeqState) (tIn : Nat) (random : Option ByteSource) :
    SeqState × List Nat × Bool :=
  let t := tIn % 2 ^ 64
  let st' := if t = st.lastTimestamp
    then { st with sequence := (st.sequence + 1) % 2 ^ 16 }
    else { lastTimestamp := t, sequence := 0 }
  let u0 := be64 t ++ List.replicate 8 0
  let u1 := (u0.drop 2).take 6 ++ u0.drop 6
  let u2 := u1.set 6 ((u1.getD 6 0 &&& 0x0F) ||| 0x80)
  let u3 := u2.set 8 ((u2.getD 8 0 &&& 0x3F) ||| 0x80)
  let u4 := putUint16 u3 8 st'.sequence
  match random with
  | none => (st', (u4.take 10 ++ List.replicate 6 0, false))
  | some r =>
    match readFull r 6 with
    | none => (st', (Nil, true))
    | some bs => (st', (u4.take 10 ++ bs, false))

/-- Go's `copy(dst[off:off+width], src)`: copies `min width src.length` bytes. -/
def copyInto (dst : List Nat) (off width : Nat) (src : List Nat) : List Nat :=
  dst.take off ++ src.take (min width src.length) ++
    dst.drop (off + min width src.length)

/-- Modelled from the spec: `randomBits` is not part of `version8.go`; per the
spec it fills the whole slice `dst[off:off+width]` with freshly drawn random
bytes and has no error path. The drawn bytes are passed in as `r`. -/
def randomBits (dst : List Nat) (off width : Nat) (r : List Nat) : List Nat :=
  dst.take off ++ (r ++ List.replicate width 0).take width ++
    dst.drop (off + width)

/-- `makeV8` (lines 110–150). The result is `none` when the initial bounds
check `_ = uuid[15]` panics (buffer shorter than 16 bytes), in which case no
field has been written; otherwise `some` of the filled buffer. `ra`, `rb`,
`rc` are the bytes `randomBits` would draw for each omitted span. -/
def makeV8 (uuid : List Nat) (customA customB customC : Option (List Nat))
    (ra rb rc : List Nat) : Option (List Nat) :=
  if uuid.length < 16 then none
  else
    let u1 := match customA with
      | some a => copyInto uuid 0 6 a
      | none => randomBits uuid 0 6 ra
    let u2 := u1.set 6 ((u1.getD 6 0 &&& 0x0F) ||| 0x80)
    let u3 := match customB with
      | some b => copyInto u2 6 2 b
      | none => randomBits u2 6 2 rb
    let u4 := u3.set 8 ((u3.getD 8 0 &&& 0x3F) ||| 0x80)
    let u5 := match customC with
      | some c => copyInto u4 8 (uuid.length - 8) c
      | none => randomBits u4 8 (uuid.length - 8) rc
    some u5

/-- Decoder for `custom_a` at the documented bit positions 0–47 (bytes 0–5,
big-endian). -/
def decodeA (u : List Nat) : Nat :=
  u.getD 0 0 * 2 ^ 40 + u.getD 1 0 * 2 ^ 32 + u.getD 2 0 * 2 ^ 24 +
    u.getD 3 0 * 2 ^ 16 + u.getD 4 0 * 2 ^ 8 + u.getD 5 0

/-- Decoder for `custom_b` at the documented bit positions 52–63 (low 12 bits
of bytes 6–7). -/
def decodeB (u : List Nat) : Nat :=
  (u.getD 6 0 % 16) * 256 + u.getD 7 0

/-- Decoder for `custom_c` at the documented bit positions 66–127 (bytes 8–15
with the top two bits of byte 8 dropped). -/
def decodeC (u : List Nat) : Nat :=
  (u.getD 8 0 % 64) * 2 ^ 56 + u.getD 9 0 * 2 ^ 48 + u.getD 10 0 * 2 ^ 40 +
    u.getD 11 0 * 2 ^ 32 + u.getD 12 0 * 2 ^ 24 + u.getD 13 0 * 2 ^ 16 +
    u.getD 14 0 * 2 ^ 8 + u.getD 15 0

/-- Or-ing in a single bit at position `k ≥ n` does not change a value
modulo `2 ^ n`. -/
theorem lor_two_pow_mod (x k n : Nat) (h : n ≤ k) :
    (x ||| 2 ^ k) % 2 ^ n = x % 2 ^ n := by
  apply Nat.eq_of_testBit_eq
  intro i
  simp only [Nat.testBit_mod_two_pow, Nat.testBit_or, Nat.testBit_two_pow]
  by_cases hi : i < n
  · have hk : ¬ (k = i) := by omega
    simp [hi, hk]
  · simp [hi]

/-- `copyInto` preserves the buffer length when the target range is in
bounds. -/
theorem copyInto_length (dst src : List Nat) (off width : Nat)
    (h : off + width ≤ dst.length) :
    (copyInto dst off width src).length = dst.length := by
  simp only [copyInto, List.length_append, List.length_take, List.length_drop]
  omega

/-- `randomBits` preserves the buffer length when the target range is in
bounds. -/
theorem randomBits_length (dst r : List Nat) (off width : Nat)
    (h : off + width ≤ dst.length) :
    (randomBits dst off width r).length = dst.length := by
  simp only [randomBits, List.length_append, List.length_take,
    List.length_drop, List.length_replicate]
  omega

/-- Projection of an explicit `SeqState`. -/
theorem SeqState_sequence (a b : Nat) : (SeqState.mk a b).sequence = b := rfl

/-- Projection of an explicit `SeqState`. -/
theorem SeqState_lastTimestamp (a b : Nat) :
    (SeqState.mk a b).lastTimestamp = a := rfl

/-- The state returned by `NewV8TimeBased` does not depend on the random
source. -/
theorem NewV8TimeBased_fst (st : SeqState) (tIn : Nat)
    (random : Option ByteSource) :
    (NewV8TimeBased st tIn random).1 =
      if (tIn % 2 ^ 64) = st.lastTimestamp
        then { st with sequence := (st.sequence + 1) % 2 ^ 16 }
        else { lastTimestamp := tIn % 2 ^ 64, sequence := 0 } := by
  cases random with
  | none => rfl
  | some r =>
    unfold NewV8TimeBased
    cases h : readFull r 6 <;> simp [h]

/-- Unfolding of `NewV8FromReader` on a working source holding exactly eight
bytes: the output buffer written out byte by byte. -/
theorem NewV8FromReader_shape (cA cB : Nat) (rander : ByteSource)
    (b0 b1 b2 b3 b4 b5 b6 b7 : Nat) :
    NewV8FromReader cA cB (some (some [b0, b1, b2, b3, b4, b5, b6, b7])) rander =
      ([((cA % 2 ^ 64) >>> 40) % 256, ((cA % 2 ^ 64) >>> 32) % 256,
        ((cA % 2 ^ 64) >>> 24) % 256, ((cA % 2 ^ 64) >>> 16) % 256,
        ((cA % 2 ^ 64) >>> 8) % 256, (cA % 2 ^ 64) % 256,
        ((((cB % 2 ^ 16) ||| 0x8000)) >>> 8) % 256,
        ((cB % 2 ^ 16) ||| 0x8000) % 256,
        (b0 &&& 0x3F) ||| 0x80, b1, b2, b3, b4, b5, b6, b7], false) := rfl

/-- Unfolding of `NewV8TimeBased` with a nil random source. -/
theorem NewV8TimeBased_shape (st : SeqState) (tIn : Nat) :
    NewV8TimeBased st tIn none =
      (if (tIn % 2 ^ 64) = st.lastTimestamp
          then { st with sequence := (st.sequence + 1) % 2 ^ 16 }
          else { lastTimestamp := tIn % 2 ^ 64, sequence := 0 },
       ([((tIn % 2 ^ 64) >>> 40) % 256, ((tIn % 2 ^ 64) >>> 32) % 256,
         ((tIn % 2 ^ 64) >>> 24) % 256, ((tIn % 2 ^ 64) >>> 16) % 256,
         ((tIn % 2 ^ 64) >>> 8) % 256, (tIn % 2 ^ 64) % 256,
         ((((tIn % 2 ^ 64) >>> 8) % 256) &&& 0x0F) ||| 0x80,
         (tIn % 2 ^ 64) % 256,
         ((if (tIn % 2 ^ 64) = st.lastTimestamp
              then { st with sequence := (st.sequence + 1) % 2 ^ 16 }
              else { lastTimestamp := tIn % 2 ^ 64,
                     sequence := 0 } : SeqState).sequence >>> 8) % 256,
         ((if (tIn % 2 ^ 64) = st.lastTimestamp
              then { st with sequence := (st.sequence + 1) % 2 ^ 16 }
              else { lastTimestamp := tIn % 2 ^ 64,
                     sequence := 0 } : SeqState).sequence) % 256,
         0, 0, 0, 0, 0, 0], false)) := rfl

/-- C1: the claim fails on the code. `NewV8FromReader` computes byte 6 as the
high byte of `uint16(customB) | 0x8000` without masking `customB` to 12 bits,
so `customB = 0x1000` yields byte 6 = `0x90` (version nibble `1001`);
`NewV8TimeBased` overwrites the variant-stamped byte 8 with the high byte of
the sequence counter, so a fresh tick yields byte 8 = `0x00` (variant bits
`00`). This evaluates the code at both failing inputs. -/
theorem version_variant_invariant_fails :
    (NewV8FromReader 0 0x1000 (some (some (List.replicate 8 0))) none).1.getD 6 0
        = 0x90 ∧
    (0x90 : Nat) >>> 4 ≠ 0b1000 ∧
    (NewV8FromReader 0 0x1000 (some (some (List.replicate 8 0))) none).2 = false ∧
    (NewV8TimeBased ⟨0, 0⟩ 1 none).2.1.getD 8 0 = 0x00 ∧
    (0x00 : Nat) >>> 6 ≠ 0b10 ∧
    (NewV8TimeBased ⟨0, 0⟩ 1 none).2.2 = false := by
  decide

/-- C2: the claim fails on the code. `makeV8` stamps the version nibble
before filling `custom_b` and the variant bits before filling `custom_c`, so
both fills overwrite the stamps: with supplied spans
`custom_a = [1,2,3,4,5,6]`, `custom_b = [0,0]`, `custom_c = [0,…,0]` the
output has byte 6 = `0x00` (version nibble `0000`) and byte 8 = `0x00`
(variant bits `00`). -/
theorem makeV8_stamping_not_final :
    makeV8 (List.replicate 16 0) (some [1, 2, 3, 4, 5, 6]) (some [0, 0])
        (some (List.replicate 8 0)) [] [] [] =
      some [1, 2, 3, 4, 5, 6, 0, 0, 0, 0, 0, 0, 0, 0, 0, 0] ∧
    (0 : Nat) >>> 4 ≠ 0b1000 ∧ (0 : Nat) >>> 6 ≠ 0b10 := by
  decide

/-- C3: the claim fails on the code. `customB` is truncated to 16 bits, not
masked to 12: bits 12–14 of `customB` reach byte 6 of the output, so two
values congruent modulo `2 ^ 12` (here `0x1000` and `0`) give different
Identifiers. The low 12 bits (the `custom_b` field proper) do decode to
`customB % 2 ^ 12`. -/
theorem customB_high_bits_not_ignored :
    (NewV8FromReader 0 0x1000 (some (some (List.replicate 8 0))) none).1 ≠
      (NewV8FromReader 0 0 (some (some (List.replicate 8 0))) none).1 ∧
    (0x1000 : Nat) % 2 ^ 12 = 0 % 2 ^ 12 ∧
    decodeB (NewV8FromReader 0 0x1000 (some (some (List.replicate 8 0))) none).1
      = 0x1000 % 2 ^ 12 := by
  decide

/-- C6 counterexample: the spec's expected list `{01,02,03,04,05,80,AB}` has
seven entries and matches neither the first eight nor the first seven bytes of
the output: encoding `0x0102030405` as a 48-bit big-endian field makes byte 0
equal `0x00`. -/
theorem splitField_expected_bytes_counterexample :
    (NewV8FromReader 0x0102030405 0x0AB (some (some (List.replicate 8 0)))
        none).1.take 8 ≠ [0x01, 0x02, 0x03, 0x04, 0x05, 0x80, 0xAB] ∧
    (NewV8FromReader 0x0102030405 0x0AB (some (some (List.replicate 8 0)))
        none).1.take 7 ≠ [0x01, 0x02, 0x03, 0x04, 0x05, 0x80, 0xAB] := by
  decide

/-- C6 amended: with `custom_a_value = 0x0102030405`,
`custom_b_value = 0x0AB` and an all-zero random source, the first eight bytes
of the output are `{0x00,0x01,0x02,0x03,0x04,0x05,0x80,0xAB}`. -/
theorem splitField_expected_bytes_amended :
    (NewV8FromReader 0x0102030405 0x0AB (some (some (List.replicate 8 0)))
        none).1.take 8 = [0x00, 0x01, 0x02, 0x03, 0x04, 0x05, 0x80, 0xAB] ∧
    (NewV8FromReader 0x0102030405 0x0AB (some (some (List.replicate 8 0)))
        none).2 = false := by
  decide

/-- C4: every call to `NewV8TimeBased` updates the sequence state exactly as
claimed: on a repeated tick the counter increments modulo `2 ^ 16` with the
tick unchanged and no error caused by wraparound; on any other tick —
including one strictly smaller than the stored tick — the stored tick becomes
the observed tick and the counter resets to 0. -/
theorem newV8TimeBased_state_update (st : SeqState) (t : Nat)
    (random : Option ByteSource) (ht : t < 2 ^ 64) :
    (t = st.lastTimestamp →
      (NewV8TimeBased st t random).1 =
        ⟨st.lastTimestamp, (st.sequence + 1) % 2 ^ 16⟩) ∧
    (t ≠ st.lastTimestamp → (NewV8TimeBased st t random).1 = ⟨t, 0⟩) := by
  have h1 := NewV8TimeBased_fst st t random
  rw [Nat.mod_eq_of_lt ht] at h1
  constructor
  · intro h
    rw [h1, if_pos h]
  · intro h
    rw [h1, if_neg h]

/-- C4 witness: the theorem instantiated at two concrete states and ticks,
once in each branch. -/
theorem newV8TimeBased_state_update_witness :
    (NewV8TimeBased ⟨7, 5⟩ 7 none).1 = ⟨7, 6⟩ ∧
    (NewV8TimeBased ⟨7, 65535⟩ 7 none).1 = ⟨7, 0⟩ ∧
    (NewV8TimeBased ⟨7, 5⟩ 3 none).1 = ⟨3, 0⟩ := by
  refine ⟨?_, ?_, ?_⟩
  · exact ((newV8TimeBased_state_update ⟨7, 5⟩ 7 none (by decide)).1 rfl).trans
      (by decide)
  · exact ((newV8TimeBased_state_update ⟨7, 65535⟩ 7 none (by decide)).1
      rfl).trans (by decide)
  · exact (newV8TimeBased_state_update ⟨7, 5⟩ 3 none (by decide)).2 (by decide)

/-- C5: two successive calls observing the same tick `t`, the first from a
state holding a different tick, both succeed, encode counter values 0 then 1
in bytes 8–9 (the first two bytes of the `custom_c` region, read big-endian)
and agree on the `custom_a` bytes 0–5. -/
theorem newV8TimeBased_same_tick_counter (st : SeqState) (t : Nat)
    (ht : t < 2 ^ 64) (hne : st.lastTimestamp ≠ t) :
    (NewV8TimeBased st t none).2.2 = false ∧
    (NewV8TimeBased (NewV8TimeBased st t none).1 t none).2.2 = false ∧
    ((NewV8TimeBased st t none).2.1.drop 8).take 2 = [0, 0] ∧
    ((NewV8TimeBased (NewV8TimeBased st t none).1 t none).2.1.drop 8).take 2
      = [0, 1] ∧
    (NewV8TimeBased st t none).2.1.take 6 =
      (NewV8TimeBased (NewV8TimeBased st t none).1 t none).2.1.take 6 := by
  have hmod : t % 2 ^ 64 = t := Nat.mod_eq_of_lt ht
  have h1 : (NewV8TimeBased st t none).1 = ⟨t, 0⟩ := by
    rw [NewV8TimeBased_fst, hmod, if_neg (fun h => hne h.symm)]
  rw [h1, NewV8TimeBased_shape, NewV8TimeBased_shape, hmod,
    if_neg (fun h => hne h.symm)]
  rw [if_pos rfl]
  simp only [SeqState_sequence, SeqState_lastTimestamp]
  refine ⟨trivial, trivial, ?_, ?_, ?_⟩
  · rfl
  · rfl
  · rfl

/-- C5 witness: the same-tick counter theorem at the concrete state `(0, 3)`
and tick 42. -/
theorem newV8TimeBased_same_tick_counter_witness :
    (NewV8TimeBased ⟨0, 3⟩ 42 none).2.2 = false ∧
    (NewV8TimeBased (NewV8TimeBased ⟨0, 3⟩ 42 none).1 42 none).2.2 = false ∧
    ((NewV8TimeBased ⟨0, 3⟩ 42 none).2.1.drop 8).take 2 = [0, 0] ∧
    ((NewV8TimeBased (NewV8TimeBased ⟨0, 3⟩ 42 none).1 42 none).2.1.drop 8).take 2
      = [0, 1] ∧
    (NewV8TimeBased ⟨0, 3⟩ 42 none).2.1.take 6 =
      (NewV8TimeBased (NewV8TimeBased ⟨0, 3⟩ 42 none).1 42 none).2.1.take 6 :=
  newV8TimeBased_same_tick_counter ⟨0, 3⟩ 42 (by decide) (by decide)

/-- C7: whenever the random-byte source fails to deliver the requested bytes,
each generator returns the Nil identifier together with the error — no
partially filled buffer reaches the caller. -/
theorem generators_return_nil_on_random_failure :
    (∀ r : ByteSource, readFull r 16 = none → NewV8 r = (Nil, true)) ∧
    (∀ cA cB : Nat, ∀ r rander : ByteSource, readFull r 8 = none →
      NewV8FromReader cA cB (some r) rander = (Nil, true)) ∧
    (∀ cA cB : Nat, ∀ rander : ByteSource, readFull rander 8 = none →
      NewV8FromReader cA cB none rander = (Nil, true)) ∧
    (∀ st : SeqState, ∀ t : Nat, ∀ r : ByteSource, readFull r 6 = none →
      (NewV8TimeBased st t (some r)).2 = (Nil, true)) := by
  refine ⟨?_, ?_, ?_, ?_⟩
  · intro r h
    simp [NewV8, NewRandom, h]
  · intro cA cB r rander h
    simp [NewV8FromReader, h]
  · intro cA cB rander h
    simp [NewV8FromReader, h]
  · intro st t r h
    simp [NewV8TimeBased, h]

/-- C7 witness: the failure theorem applied to the immediately failing
source. -/
theorem generators_return_nil_on_random_failure_witness :
    NewV8 none = (Nil, true) ∧
    NewV8FromReader 0 0 (some none) none = (Nil, true) ∧
    NewV8FromReader 0 0 none none = (Nil, true) ∧
    (NewV8TimeBased ⟨0, 0⟩ 0 (some none)).2 = (Nil, true) :=
  ⟨generators_return_nil_on_random_failure.1 none rfl,
   generators_return_nil_on_random_failure.2.1 0 0 none none rfl,
   generators_return_nil_on_random_failure.2.2.1 0 0 none rfl,
   generators_return_nil_on_random_failure.2.2.2 ⟨0, 0⟩ 0 none rfl⟩

/-- C9: `NewV8TimeBased` returns an error exactly when a random source is
supplied and fails to deliver six bytes; with no random source the call
succeeds and bytes 10–15 of the output are all zero. -/
theorem newV8TimeBased_error_iff (st : SeqState) (t : Nat)
    (random : Option ByteSource) :
    ((NewV8TimeBased st t random).2.2 = true ↔
      ∃ r, random = some r ∧ readFull r 6 = none) ∧
    (NewV8TimeBased st t none).2.2 = false ∧
    (NewV8TimeBased st t none).2.1.drop 10 = List.replicate 6 0 := by
  refine ⟨?_, rfl, ?_⟩
  · cases random with
    | none => simp [NewV8TimeBased]
    | some r =>
      cases h : readFull r 6 with
      | none => simp [NewV8TimeBased, h]
      | some bs => simp [NewV8TimeBased, h]
  · rfl

/-- C10: `makeV8` is safe exactly for buffers of at least 16 bytes: with
`16 ≤ length` it produces a buffer of the same length (every write lands in
bounds), and with `length < 16` the initial bounds check fails before any
field is written, so no buffer is produced at all. -/
theorem makeV8_bounds (uuid : List Nat) (cA cB cC : Option (List Nat))
    (ra rb rc : List Nat) :
    (16 ≤ uuid.length →
      ∃ out, makeV8 uuid cA cB cC ra rb rc = some out ∧
        out.length = uuid.length) ∧
    (uuid.length < 16 → makeV8 uuid cA cB cC ra rb rc = none) := by
  constructor
  · intro h
    have h16 : ¬ uuid.length < 16 := by omega
    rw [makeV8.eq_def, if_neg h16]
    refine ⟨_, rfl, ?_⟩
    cases cA <;> cases cB <;> cases cC <;>
      simp only [copyInto, randomBits, List.length_append, List.length_take,
        List.length_drop, List.length_set, List.length_replicate] <;>
      omega
  · intro h
    rw [makeV8.eq_def, if_pos h]

/-- C10 witness: the bounds theorem at a 16-byte buffer and at a 15-byte
buffer. -/
theorem makeV8_bounds_witness :
    (∃ out, makeV8 (List.replicate 16 1) none none none [] [] [] = some out ∧
      out.length = (List.replicate 16 1).length) ∧
    makeV8 (List.replicate 15 1) none none none [] [] [] = none :=
  ⟨(makeV8_bounds (List.replicate 16 1) none none none [] [] []).1 (by decide),
   (makeV8_bounds (List.replicate 15 1) none none none [] [] []).2 (by decide)⟩

/-- C8: decoding a successful Split-Field output at the documented bit
positions recovers `customA` masked to 48 bits, `customB` masked to 12 bits,
and exactly the 62 bits drawn from the random source (the low 6 bits of its
first byte and its remaining seven bytes). -/
theorem newV8FromReader_roundtrip (cA cB : Nat) (rander : ByteSource)
    (b0 b1 b2 b3 b4 b5 b6 b7 : Nat) :
    (NewV8FromReader cA cB (some (some [b0, b1, b2, b3, b4, b5, b6, b7]))
        rander).2 = false ∧
    decodeA (NewV8FromReader cA cB (some (some [b0, b1, b2, b3, b4, b5, b6, b7]))
        rander).1 = cA % 2 ^ 48 ∧
    decodeB (NewV8FromReader cA cB (some (some [b0, b1, b2, b3, b4, b5, b6, b7]))
        rander).1 = cB % 2 ^ 12 ∧
    decodeC (NewV8FromReader cA cB (some (some [b0, b1, b2, b3, b4, b5, b6, b7]))
        rander).1 =
      b0 % 64 * 2 ^ 56 + b1 * 2 ^ 48 + b2 * 2 ^ 40 + b3 * 2 ^ 32 +
        b4 * 2 ^ 24 + b5 * 2 ^ 16 + b6 * 2 ^ 8 + b7 := by
  rw [NewV8FromReader_shape]
  refine ⟨rfl, ?_, ?_, ?_⟩
  · show ((cA % 2 ^ 64) >>> 40) % 256 * 2 ^ 40 +
        ((cA % 2 ^ 64) >>> 32) % 256 * 2 ^ 32 +
        ((cA % 2 ^ 64) >>> 24) % 256 * 2 ^ 24 +
        ((cA % 2 ^ 64) >>> 16) % 256 * 2 ^ 16 +
        ((cA % 2 ^ 64) >>> 8) % 256 * 2 ^ 8 + (cA % 2 ^ 64) % 256 = cA % 2 ^ 48
    simp only [Nat.shiftRight_eq_div_pow]
    omega
  · show (((cB % 2 ^ 16) ||| 0x8000) >>> 8) % 256 % 16 * 256 +
        ((cB % 2 ^ 16) ||| 0x8000) % 256 = cB % 2 ^ 12
    have hy : ((cB % 2 ^ 16) ||| 0x8000) % 2 ^ 12 = cB % 2 ^ 12 := by
      have h1 : ((cB % 2 ^ 16) ||| 2 ^ 15) % 2 ^ 12 = (cB % 2 ^ 16) % 2 ^ 12 :=
        lor_two_pow_mod (cB % 2 ^ 16) 15 12 (by omega)
      calc ((cB % 2 ^ 16) ||| 0x8000) % 2 ^ 12
          = ((cB % 2 ^ 16) ||| 2 ^ 15) % 2 ^ 12 := rfl
        _ = (cB % 2 ^ 16) % 2 ^ 12 := h1
        _ = cB % 2 ^ 12 := Nat.mod_mod_of_dvd cB ⟨2 ^ 4, rfl⟩
    generalize (cB % 2 ^ 16) ||| 0x8000 = y at hy ⊢
    rw [Nat.shiftRight_eq_div_pow]
    omega
  · show ((b0 &&& 0x3F) ||| 0x80) % 64 * 2 ^ 56 + b1 * 2 ^ 48 + b2 * 2 ^ 40 +
        b3 * 2 ^ 32 + b4 * 2 ^ 24 + b5 * 2 ^ 16 + b6 * 2 ^ 8 + b7 =
      b0 % 64 * 2 ^ 56 + b1 * 2 ^ 48 + b2 * 2 ^ 40 + b3 * 2 ^ 32 +
        b4 * 2 ^ 24 + b5 * 2 ^ 16 + b6 * 2 ^ 8 + b7
    have hb : ((b0 &&& 0x3F) ||| 0x80) % 64 = b0 % 64 := by
      have h1 : ((b0 % 2 ^ 6) ||| 2 ^ 7) % 2 ^ 6 = (b0 % 2 ^ 6) % 2 ^ 6 :=
        lor_two_pow_mod (b0 % 2 ^ 6) 7 6 (by omega)
      calc ((b0 &&& 0x3F) ||| 0x80) % 64
          = ((b0 &&& (2 ^ 6 - 1)) ||| 2 ^ 7) % 2 ^ 6 := rfl
        _ = ((b0 % 2 ^ 6) ||| 2 ^ 7) % 2 ^ 6 := by
            rw [Nat.and_pow_two_sub_one_eq_mod]
        _ = (b0 % 2 ^ 6) % 2 ^ 6 := h1
        _ = b0 % 64 := Nat.mod_mod_of_dvd b0 ⟨1, rfl⟩
    rw [hb]
